import Mathlib

set_option maxRecDepth 100000

/-!
Verification of `balatro-rs` (pylatro Python surface) against its
natural-language specification.

The development embeds, as executable Lean definitions:

* the `update_voucher_enum.py` maintenance script: its enum-section text,
  its marker search (Python `str.find`) and its rewrite step, together with
  the `VoucherId` catalog data (prerequisites and base costs) that the
  script's generated Rust section registers;
* the `_load_config` key/value loader of `repl/repl.py`;
* a model of the game-engine core (state machine, action-space generator,
  compatibility shim).  The engine itself is a compiled PyO3 extension whose
  sources are not part of this repository's Python tree, so those
  definitions are modelled from the specification (each such definition
  carries a doc comment starting with `Modelled from the spec:`).

Theorems named `C1_*` .. `C10_*` settle the numbered claims; the remaining
lemmas are shared infrastructure.
-/

/-! ## Part A: the `update_voucher_enum.py` script -/

/-- The replacement text the script writes between the two markers is the
Python `new_enum_section` triple-quoted literal.  The text is kept verbatim
but split into consecutive pieces of at most 480 characters (concatenated in
order below) so that proofs about it never have to reduce a 4174-element
list in one nested pass. -/

def nes1 : String :=
"/// Identifier for all voucher cards in the game\n/// Extended with all shop voucher implementations for Issue #17\n#[derive(Debug, Clone, Copy, PartialEq, Eq, Hash, Serialize, Deserialize, EnumIter)]\npub enum VoucherId \x7b\n    // Existing vouchers\n    /// Grab Bag voucher - +1 pack option for all booster packs\n    GrabBag,\n    \n    // Shop vouchers from Issue #17\n    /// Overstock voucher - +1 card slot in shop\n    Overstock,\n    /// Overstock+ voucher - +2 card slots in shop (u"

def nes2 : String :=
"pgraded version)\n    OverstockPlus,\n    /// Clearance Sale voucher - All items in shop 50% off\n    ClearanceSale,\n    /// Hone voucher - Foil/Holo/Polychrome cards appear 2X more\n    Hone,\n    /// Reroll Surplus voucher - Rerolls cost $1 less  \n    RerollSurplus,\n    /// Crystal Ball voucher - +1 consumable slot\n    CrystalBall,\n    /// Telescope voucher - Celestial packs have 1 more planet card\n    Telescope,\n    /// Liquidation voucher - All items 25% off, rerolls 25% off\n "

def nes3 : String :=
"   Liquidation,\n    /// Reroll Glut voucher - Rerolls cost $2 less\n    RerollGlut,\n    /// Omen Globe voucher - Spectral packs may contain Planet cards\n    OmenGlobe,\n    /// Observatory voucher - Planet cards in shop give x1.5 mult\n    Observatory,\n    \n    /// Placeholder for future voucher implementations\n    VoucherPlaceholder,\n\x7d\n\nimpl fmt::Display for VoucherId \x7b\n    fn fmt(&self, f: &mut fmt::Formatter) -> fmt::Result \x7b\n        match self \x7b\n            VoucherId::GrabBa"

def nes4 : String :=
"g => write\\!(f, \"Grab Bag\"),\n            VoucherId::Overstock => write\\!(f, \"Overstock\"),\n            VoucherId::OverstockPlus => write\\!(f, \"Overstock Plus\"),\n            VoucherId::ClearanceSale => write\\!(f, \"Clearance Sale\"),\n            VoucherId::Hone => write\\!(f, \"Hone\"),\n            VoucherId::RerollSurplus => write\\!(f, \"Reroll Surplus\"),\n            VoucherId::CrystalBall => write\\!(f, \"Crystal Ball\"),\n            VoucherId::Telescope => write\\!(f, \"Telescope\"),\n  "

def nes5 : String :=
"          VoucherId::Liquidation => write\\!(f, \"Liquidation\"),\n            VoucherId::RerollGlut => write\\!(f, \"Reroll Glut\"),\n            VoucherId::OmenGlobe => write\\!(f, \"Omen Globe\"),\n            VoucherId::Observatory => write\\!(f, \"Observatory\"),\n            VoucherId::VoucherPlaceholder => write\\!(f, \"Voucher Placeholder\"),\n        \x7d\n    \x7d\n\x7d\n\nimpl VoucherId \x7b\n    /// Get all available voucher IDs\n    pub fn all() -> Vec<VoucherId> \x7b\n        Self::iter().collect()\n    "

def nes6 : String :=
"\x7d\n\n    /// Check if this voucher has any prerequisites\n    pub fn has_prerequisites(&self) -> bool \x7b\n        \\!self.prerequisites().is_empty()\n    \x7d\n\n    /// Get the prerequisite vouchers for this voucher\n    pub fn prerequisites(&self) -> Vec<VoucherId> \x7b\n        match self \x7b\n            // Base vouchers have no prerequisites\n            VoucherId::GrabBag => vec\\![],\n            VoucherId::Overstock => vec\\![],\n            VoucherId::ClearanceSale => vec\\![],\n            Vo"

def nes7 : String :=
"ucherId::Hone => vec\\![],\n            VoucherId::RerollSurplus => vec\\![],\n            VoucherId::CrystalBall => vec\\![],\n            VoucherId::Telescope => vec\\![],\n            VoucherId::Liquidation => vec\\![],\n            VoucherId::RerollGlut => vec\\![],\n            VoucherId::OmenGlobe => vec\\![],\n            VoucherId::Observatory => vec\\![],\n            \n            // Upgraded versions require base versions\n            VoucherId::OverstockPlus => vec\\![VoucherId::Ove"

def nes8 : String :=
"rstock],\n            \n            VoucherId::VoucherPlaceholder => vec\\![],\n        \x7d\n    \x7d\n\n    /// Get the base cost of this voucher\n    pub fn base_cost(&self) -> usize \x7b\n        match self \x7b\n            VoucherId::GrabBag => 10,\n            VoucherId::Overstock => 10,\n            VoucherId::OverstockPlus => 20, // Upgraded version costs more\n            VoucherId::ClearanceSale => 10,\n            VoucherId::Hone => 10,\n            VoucherId::RerollSurplus => 10,\n         "

def nes9 : String :=
"   VoucherId::CrystalBall => 10,\n            VoucherId::Telescope => 10,\n            VoucherId::Liquidation => 10,\n            VoucherId::RerollGlut => 20, // More powerful, costs more\n            VoucherId::OmenGlobe => 10, \n            VoucherId::Observatory => 10,\n            VoucherId::VoucherPlaceholder => 10,\n        \x7d\n    \x7d\n\x7d"

/-- The Python `new_enum_section` string: the pieces above, in order. -/
def new_enum_section : String :=
  nes1 ++ (nes2 ++ (nes3 ++ (nes4 ++ (nes5 ++ (nes6 ++ (nes7 ++ (nes8 ++ (nes9))))))))

/-- The script's start marker: `start_marker = "/// Identifier for all voucher cards in the game"`. -/
def start_marker : String := "/// Identifier for all voucher cards in the game"

/-- The script's end marker: `end_marker = "/// Set of vouchers owned by the player"`. -/
def end_marker : String := "/// Set of vouchers owned by the player"

/-- File contents as character lists (Python `str` values). -/
def start_markerL : List Char := start_marker.toList

def end_markerL : List Char := end_marker.toList

def new_enum_sectionL : List Char := new_enum_section.toList

/-- The `"\n\n"` the script inserts after the new section. -/
def padL : List Char := '\n' :: '\n' :: []

/-- Python `content.find(pat)`: index of the first occurrence of `pat` in the
scanned text, `none` when Python would return `-1`. -/
def findSub (pat : List Char) : List Char → Option Nat
  | [] => if pat <+: ([] : List Char) then some 0 else none
  | c :: rest => if pat <+: c :: rest then some 0 else (findSub pat rest).map (· + 1)

/-- What the script's module body does to the target file: either it exits
with status 1 (both markers must be found) or it rewrites the file to the
stated contents. -/
inductive ScriptOutcome where
  | exitError (code : Nat)
  | wrote (newContent : List Char)
deriving DecidableEq

/-- The module body of `update_voucher_enum.py`: find the two markers, exit 1
when either is missing, otherwise replace everything from the first start
marker up to the first end marker by `new_enum_section ++ "\n\n"`. -/
def updateVoucherScript (content : List Char) : ScriptOutcome :=
  match findSub start_markerL content, findSub end_markerL content with
  | some startPos, some endPos =>
      .wrote (content.take startPos ++ new_enum_sectionL ++ padL ++ content.drop endPos)
  | _, _ => .exitError 1

/-- The voucher identifiers the script registers (the `pub enum VoucherId`
of the generated section). -/
inductive VoucherId where
  | GrabBag
  | Overstock
  | OverstockPlus
  | ClearanceSale
  | Hone
  | RerollSurplus
  | CrystalBall
  | Telescope
  | Liquidation
  | RerollGlut
  | OmenGlobe
  | Observatory
  | VoucherPlaceholder
deriving DecidableEq, Fintype

/-- `VoucherId::prerequisites` of the generated section: only
`OverstockPlus` has a prerequisite, namely `Overstock`. -/
def VoucherId.prerequisites : VoucherId → List VoucherId
  | .GrabBag => []
  | .Overstock => []
  | .ClearanceSale => []
  | .Hone => []
  | .RerollSurplus => []
  | .CrystalBall => []
  | .Telescope => []
  | .Liquidation => []
  | .RerollGlut => []
  | .OmenGlobe => []
  | .Observatory => []
  | .OverstockPlus => [.Overstock]
  | .VoucherPlaceholder => []

/-- `VoucherId::has_prerequisites` of the generated section. -/
def VoucherId.has_prerequisites (v : VoucherId) : Bool :=
  !v.prerequisites.isEmpty

/-- `VoucherId::base_cost` of the generated section. -/
def VoucherId.base_cost : VoucherId → Nat
  | .GrabBag => 10
  | .Overstock => 10
  | .OverstockPlus => 20
  | .ClearanceSale => 10
  | .Hone => 10
  | .RerollSurplus => 10
  | .CrystalBall => 10
  | .Telescope => 10
  | .Liquidation => 10
  | .RerollGlut => 20
  | .OmenGlobe => 10
  | .Observatory => 10
  | .VoucherPlaceholder => 10

/-- Rank used to refute cycles in the prerequisite graph: the one voucher
with a prerequisite sits strictly above its prerequisite. -/
def voucherRank : VoucherId → Nat
  | .OverstockPlus => 1
  | _ => 0

theorem voucherStep_rank : ∀ a b : VoucherId, b ∈ a.prerequisites → voucherRank b < voucherRank a := by
  decide

theorem voucherTransGen_rank {a b : VoucherId}
    (h : Relation.TransGen (fun x y => y ∈ VoucherId.prerequisites x) a b) :
    voucherRank b < voucherRank a := by
  induction h with
  | single h => exact voucherStep_rank _ _ h
  | tail _ h ih => exact lt_trans (voucherStep_rank _ _ h) ih

/-- C6: the prerequisite relation registered for `VoucherId` is acyclic: no
voucher is reachable from itself by repeatedly following `prerequisites`;
in the registered data the only non-empty prerequisite list is
`OverstockPlus -> [Overstock]`, and `Overstock` itself has none. -/
theorem C6_voucher_prerequisites_acyclic :
    (∀ v : VoucherId, ¬ Relation.TransGen (fun a b => b ∈ VoucherId.prerequisites a) v v) ∧
    VoucherId.prerequisites .OverstockPlus = [.Overstock] ∧
    VoucherId.prerequisites .Overstock = [] ∧
    (∀ v : VoucherId, v ≠ .OverstockPlus → VoucherId.prerequisites v = []) := by
  refine ⟨fun v h => absurd (voucherTransGen_rank h) (lt_irrefl _), rfl, rfl, by decide⟩

/-- C10: a voucher with prerequisites costs strictly more than each of its
prerequisites (`OverstockPlus` at 20 vs `Overstock` at 10), and every
registered base cost is a non-negative integer. -/
theorem C10_prerequisite_costs_increase :
    (∀ v p : VoucherId, p ∈ VoucherId.prerequisites v → p.base_cost < v.base_cost) ∧
    VoucherId.base_cost .OverstockPlus = 20 ∧
    VoucherId.base_cost .Overstock = 10 ∧
    (∀ v : VoucherId, 0 ≤ (VoucherId.base_cost v : Int)) := by
  refine ⟨by decide, rfl, rfl, fun v => Int.ofNat_nonneg _⟩

/-! ### Soundness and completeness of the marker search -/

theorem findSub_isPrefix {pat : List Char} :
    ∀ {l : List Char} {i : Nat}, findSub pat l = some i → pat <+: l.drop i := by
  intro l
  induction l with
  | nil =>
    intro i h
    simp only [findSub] at h
    split at h
    · cases h; simpa using ‹pat <+: ([] : List Char)›
    · cases h
  | cons c rest ih =>
    intro i h
    simp only [findSub] at h
    split at h
    · cases h; simpa using ‹pat <+: c :: rest›
    · obtain ⟨j, hj, rfl⟩ := Option.map_eq_some'.mp h
      simpa using ih hj

theorem findSub_min {pat : List Char} :
    ∀ {l : List Char} {i : Nat}, findSub pat l = some i → ∀ j, j < i → ¬ pat <+: l.drop j := by
  intro l
  induction l with
  | nil =>
    intro i h
    simp only [findSub] at h
    split at h
    · cases h; omega
    · cases h
  | cons c rest ih =>
    intro i h
    simp only [findSub] at h
    split at h
    · cases h; omega
    · obtain ⟨j0, hj0, rfl⟩ := Option.map_eq_some'.mp h
      intro j hj hpre
      match j with
      | 0 => exact ‹¬ pat <+: c :: rest› (by simpa using hpre)
      | j' + 1 => exact ih hj0 j' (by omega) (by simpa using hpre)

theorem findSub_eq_none_iff {pat : List Char} :
    ∀ {l : List Char}, findSub pat l = none ↔ ∀ i, ¬ pat <+: l.drop i := by
  intro l
  induction l with
  | nil =>
    simp only [findSub]
    split
    · simp only [reduceCtorEq, false_iff, not_forall, not_not]
      exact ⟨0, by simpa using ‹pat <+: ([] : List Char)›⟩
    · simp only [true_iff]
      intro i
      simpa using ‹¬ pat <+: ([] : List Char)›
  | cons c rest ih =>
    simp only [findSub]
    split
    · simp only [reduceCtorEq, false_iff, not_forall, not_not]
      exact ⟨0, by simpa using ‹pat <+: c :: rest›⟩
    · simp only [Option.map_eq_none', ih]
      constructor
      · intro h i
        match i with
        | 0 => simpa using ‹¬ pat <+: c :: rest›
        | i' + 1 => simpa using h i'
      · intro h i
        simpa using h (i + 1)

theorem findSub_complete {pat : List Char} :
    ∀ {l : List Char} {i : Nat}, pat <+: l.drop i → (∀ j, j < i → ¬ pat <+: l.drop j) →
      findSub pat l = some i := by
  intro l
  induction l with
  | nil =>
    intro i hpre hmin
    match i with
    | 0 => simp only [findSub]; rw [if_pos (by simpa using hpre)]
    | i' + 1 =>
      have h0 : pat <+: ([] : List Char) := by simpa using hpre
      exact absurd h0 (by simpa using hmin 0 (by omega))
  | cons c rest ih =>
    intro i hpre hmin
    by_cases hp : pat <+: c :: rest
    · match i with
      | 0 => simp only [findSub]; rw [if_pos hp]
      | i' + 1 => exact absurd hp (by simpa using hmin 0 (by omega))
    · match i with
      | 0 => exact absurd (by simpa using hpre) hp
      | i' + 1 =>
        simp only [findSub]
        rw [if_neg hp]
        have : findSub pat rest = some i' :=
          ih (by simpa using hpre) (fun j hj h => hmin (j + 1) (by omega) (by simpa using h))
        rw [this, Option.map_some']

/-! ### Prefix bookkeeping used by the idempotence proof -/

/-- A pattern reaching past the first block of an append is, past that block,
a prefix of the remainder. -/
theorem prefix_drop_append {a b c : List Char} (h : a <+: b ++ c) :
    a.drop b.length <+: c := by
  rw [List.prefix_iff_eq_take.mp h, List.drop_take, List.drop_left]
  exact List.take_prefix _ _

/-- A prefix of a `take` of the text is a prefix of the text. -/
theorem prefix_of_prefix_take {pat content : List Char} {j n : Nat}
    (h : pat <+: (content.take n).drop j) : pat <+: content.drop j := by
  rw [List.drop_take] at h
  exact h.trans (List.take_prefix _ _)

/-! ### Concrete facts about the script's marker strings -/

theorem start_marker_length : start_markerL.length = 48 := rfl

theorem end_marker_length : end_markerL.length = 39 := rfl


/-- Bounded occurrence scanner: `true` iff `pat` starts at none of the first
`n` positions of `l`.  Used to check chunks of the section text without
reducing the whole text in one nested pass. -/
def noOccurIn (pat : List Char) : Nat → List Char → Bool
  | 0, _ => true
  | _ + 1, [] => true
  | n + 1, c :: rest => !(decide (pat <+: c :: rest)) && noOccurIn pat n rest

theorem noOccurIn_correct {pat : List Char} (hpat : pat ≠ []) :
    ∀ {n : Nat} {l : List Char}, noOccurIn pat n l = true →
      ∀ i, i < n → ¬ pat <+: l.drop i := by
  intro n
  induction n with
  | zero => intro l _ i hi; omega
  | succ n ih =>
    intro l h i hi
    match l with
    | [] =>
      intro hpre
      rw [List.drop_nil] at hpre
      exact hpat (List.prefix_nil.mp hpre)
    | c :: rest =>
      simp only [noOccurIn, Bool.and_eq_true, Bool.not_eq_true', decide_eq_false_iff_not] at h
      match i with
      | 0 => simpa using h.1
      | i' + 1 =>
        intro hpre
        exact ih h.2 i' (by omega) (by simpa using hpre)

/-- Whether a pattern is a prefix of `X ++ Y` only depends on the first
`pat.length` characters of `Y`. -/
theorem prefix_append_take {pat X Y : List Char} :
    pat <+: X ++ Y ↔ pat <+: X ++ Y.take pat.length := by
  have hTT : (X ++ Y).take pat.length = (X ++ Y.take pat.length).take pat.length := by
    rw [List.take_append_eq_append_take, List.take_append_eq_append_take, List.take_take,
      Nat.min_eq_left (Nat.sub_le _ _)]
  rw [List.prefix_iff_eq_take, List.prefix_iff_eq_take, hTT]

/-- Occurrence-freeness glues along an append: no occurrence starting inside
`A` (checked against a `pat.length` window into `B`) and none inside `B`
gives none in `A ++ B`. -/
theorem noOccur_append {pat A B : List Char}
    (h1 : ∀ i, i < A.length → ¬ pat <+: (A ++ B.take pat.length).drop i)
    (h2 : ∀ i, ¬ pat <+: B.drop i) :
    ∀ i, ¬ pat <+: (A ++ B).drop i := by
  intro i hpre
  by_cases hi : i < A.length
  · refine h1 i hi ?_
    have hAB : (A ++ B).drop i = A.drop i ++ B := by
      rw [List.drop_append_eq_append_drop, Nat.sub_eq_zero_of_le (le_of_lt hi), List.drop_zero]
    have hAB' : (A ++ B.take pat.length).drop i = A.drop i ++ B.take pat.length := by
      rw [List.drop_append_eq_append_drop, Nat.sub_eq_zero_of_le (le_of_lt hi), List.drop_zero]
    rw [hAB] at hpre
    rw [hAB']
    exact prefix_append_take.mp hpre
  · push_neg at hi
    have hB : (A ++ B).drop i = B.drop (i - A.length) := by
      rw [List.drop_append_eq_append_drop, List.drop_eq_nil_of_le hi, List.nil_append]
    rw [hB] at hpre
    exact h2 _ hpre

theorem noOccur_append_chunk {pat A B : List Char} (hpat : pat ≠ [])
    (h1 : noOccurIn pat A.length (A ++ B.take pat.length) = true)
    (h2 : ∀ i, ¬ pat <+: B.drop i) :
    ∀ i, ¬ pat <+: (A ++ B).drop i :=
  noOccur_append (noOccurIn_correct hpat h1) h2

/-- A pattern longer than the text occurs nowhere in it. -/
theorem noOccur_of_lt_length {pat l : List Char} (h : l.length < pat.length) :
    ∀ i, ¬ pat <+: l.drop i := by
  intro i hpre
  have h1 := hpre.length_le
  rw [List.length_drop] at h1
  omega

/-! ### Concrete facts about the marker strings and the section text -/

theorem new_enum_sectionL_eq :
    new_enum_sectionL =
      nes1.toList ++ (nes2.toList ++ (nes3.toList ++ (nes4.toList ++ (nes5.toList ++
        (nes6.toList ++ (nes7.toList ++ (nes8.toList ++ nes9.toList))))))) := rfl

theorem newpadL_eq :
    new_enum_sectionL ++ padL =
      nes1.toList ++ (nes2.toList ++ (nes3.toList ++ (nes4.toList ++ (nes5.toList ++
        (nes6.toList ++ (nes7.toList ++ (nes8.toList ++ (nes9.toList ++ padL)))))))) := by
  rw [new_enum_sectionL_eq]
  simp [List.append_assoc]

theorem nes1_toList_length : nes1.toList.length = 480 := by decide

theorem new_enum_section_length : new_enum_sectionL.length = 4174 := by
  rw [new_enum_sectionL_eq]
  simp only [List.length_append]
  have h1 : nes1.toList.length = 480 := by decide
  have h2 : nes2.toList.length = 480 := by decide
  have h3 : nes3.toList.length = 480 := by decide
  have h4 : nes4.toList.length = 480 := by decide
  have h5 : nes5.toList.length = 480 := by decide
  have h6 : nes6.toList.length = 480 := by decide
  have h7 : nes7.toList.length = 480 := by decide
  have h8 : nes8.toList.length = 480 := by decide
  have h9 : nes9.toList.length = 334 := by decide
  rw [h1, h2, h3, h4, h5, h6, h7, h8, h9]

theorem padL_length : padL.length = 2 := rfl

theorem start_prefix_new_enum : start_markerL <+: new_enum_sectionL := by
  rw [new_enum_sectionL_eq]
  exact (show start_markerL <+: nes1.toList by decide).trans (List.prefix_append _ _)

theorem start_marker_aperiodic :
    ∀ k, k < 48 → 0 < k → start_markerL.drop k ≠ start_markerL.take (48 - k) := by decide

theorem end_marker_aperiodic :
    ∀ k, k < 39 → 0 < k → end_markerL.drop k ≠ end_markerL.take (39 - k) := by decide

theorem end_marker_no_straddle_new_enum :
    ∀ k, k < 39 → 0 < k → ¬ end_markerL.drop k <+: new_enum_sectionL := by
  intro k hk hk0 hpre
  rw [new_enum_sectionL_eq] at hpre
  have hin : end_markerL.drop k <+: nes1.toList := by
    refine (List.isPrefix_append_of_length ?_).mp hpre
    rw [List.length_drop, end_marker_length, nes1_toList_length]
    omega
  exact (show ∀ k, k < 39 → 0 < k → ¬ end_markerL.drop k <+: nes1.toList by decide)
    k hk hk0 hin

theorem end_marker_not_in_new_enum :
    ∀ i, ¬ end_markerL <+: (new_enum_sectionL ++ padL).drop i := by
  rw [newpadL_eq]
  refine noOccur_append_chunk (by decide) (by decide) ?_
  refine noOccur_append_chunk (by decide) (by decide) ?_
  refine noOccur_append_chunk (by decide) (by decide) ?_
  refine noOccur_append_chunk (by decide) (by decide) ?_
  refine noOccur_append_chunk (by decide) (by decide) ?_
  refine noOccur_append_chunk (by decide) (by decide) ?_
  refine noOccur_append_chunk (by decide) (by decide) ?_
  refine noOccur_append_chunk (by decide) (by decide) ?_
  refine noOccur_append_chunk (by decide) (by decide) ?_
  exact noOccur_of_lt_length (by decide)

/-! ### C8 and C9: behaviour of the rewrite -/

/-- C8: the enum-section rewrite is idempotent.  Whenever the start marker
occurs before the end marker in the input (so the script writes at all),
running the module body on its own output reproduces that output: the new
section begins with the start marker line and contains no occurrence of the
end marker, so both marker searches land exactly where the previous rewrite
put them. -/
theorem C8_rewrite_idempotent {content out : List Char} {s e : Nat}
    (hs : findSub start_markerL content = some s)
    (he : findSub end_markerL content = some e)
    (hse : s < e)
    (hout : updateVoucherScript content = .wrote out) :
    updateVoucherScript out = .wrote out := by
  have hM_pre : start_markerL <+: content.drop s := findSub_isPrefix hs
  have hM_min := findSub_min hs
  have hE_pre : end_markerL <+: content.drop e := findSub_isPrefix he
  have hE_min := findSub_min he
  have h48 : 48 ≤ content.length - s := by
    have h1 := hM_pre.length_le
    rw [List.length_drop, start_marker_length] at h1
    exact h1
  have hPlen : (content.take s).length = s := by
    rw [List.length_take]; omega
  have hout_eq : out = content.take s ++ (new_enum_sectionL ++ (padL ++ content.drop e)) := by
    have hcalc : updateVoucherScript content =
        .wrote (content.take s ++ new_enum_sectionL ++ padL ++ content.drop e) := by
      unfold updateVoucherScript
      rw [hs, he]
    rw [hcalc] at hout
    injection hout with h
    rw [← h]
    simp [List.append_assoc]
  have hsplit : out = (content.take s ++ (new_enum_sectionL ++ padL)) ++ content.drop e := by
    rw [hout_eq]; simp [List.append_assoc]
  have hlen2 : (content.take s ++ (new_enum_sectionL ++ padL)).length = s + 4176 := by
    rw [List.length_append, List.length_append, hPlen, new_enum_section_length, padL_length]
  have hdrop_lt : ∀ j, j ≤ s →
      out.drop j = (content.take s).drop j ++ (new_enum_sectionL ++ (padL ++ content.drop e)) := by
    intro j hj
    rw [hout_eq, List.drop_append_eq_append_drop, hPlen, Nat.sub_eq_zero_of_le hj,
      List.drop_zero]
  have hdrop_big : out.drop (s + 4176) = content.drop e := by
    rw [hsplit, List.drop_left' hlen2]
  have claimA : findSub start_markerL out = some s := by
    apply findSub_complete
    · have hs0 : out.drop s = new_enum_sectionL ++ (padL ++ content.drop e) := by
        rw [hdrop_lt s le_rfl, List.drop_take]
        simp
      rw [hs0]
      exact start_prefix_new_enum.trans (List.prefix_append _ _)
    · intro j hj hpre
      rw [hdrop_lt j (le_of_lt hj)] at hpre
      by_cases hcase : 48 ≤ s - j
      · have h1 : start_markerL <+: (content.take s).drop j := by
          refine (List.isPrefix_append_of_length ?_).mp hpre
          rw [start_marker_length, List.length_drop, hPlen]; omega
        have h2 : start_markerL <+: content.drop j := by
          rw [List.drop_take] at h1
          exact h1.trans (List.take_prefix _ _)
        exact hM_min j hj h2
      · push_neg at hcase
        have hdropk := prefix_drop_append hpre
        rw [List.length_drop, hPlen] at hdropk
        have hin : start_markerL.drop (s - j) <+: new_enum_sectionL := by
          refine (List.isPrefix_append_of_length ?_).mp hdropk
          rw [List.length_drop, start_marker_length, new_enum_section_length]; omega
        have hMM : start_markerL.drop (s - j) <+: start_markerL :=
          List.prefix_of_prefix_length_le hin start_prefix_new_enum
            (by rw [List.length_drop, start_marker_length]; omega)
        have heq : start_markerL.drop (s - j) = start_markerL.take (48 - (s - j)) := by
          have h3 := List.prefix_iff_eq_take.mp hMM
          rw [List.length_drop, start_marker_length] at h3
          exact h3
        exact start_marker_aperiodic (s - j) (by omega) (by omega) heq
  have claimB : findSub end_markerL out = some (s + 4176) := by
    apply findSub_complete
    · rw [hdrop_big]; exact hE_pre
    · intro j hj hpre
      by_cases hjs : j < s
      · rw [hdrop_lt j (le_of_lt hjs)] at hpre
        by_cases hcase : 39 ≤ s - j
        · have h1 : end_markerL <+: (content.take s).drop j := by
            refine (List.isPrefix_append_of_length ?_).mp hpre
            rw [end_marker_length, List.length_drop, hPlen]; omega
          have h2 : end_markerL <+: content.drop j := by
            rw [List.drop_take] at h1
            exact h1.trans (List.take_prefix _ _)
          exact hE_min j (by omega) h2
        · push_neg at hcase
          have hdropk := prefix_drop_append hpre
          rw [List.length_drop, hPlen] at hdropk
          have hin : end_markerL.drop (s - j) <+: new_enum_sectionL := by
            refine (List.isPrefix_append_of_length ?_).mp hdropk
            rw [List.length_drop, end_marker_length, new_enum_section_length]; omega
          exact end_marker_no_straddle_new_enum (s - j) (by omega) (by omega) hin
      · push_neg at hjs
        have hdropj : out.drop j =
            (new_enum_sectionL ++ padL).drop (j - s) ++ content.drop e := by
          rw [hsplit, List.drop_append_eq_append_drop, hlen2,
            Nat.sub_eq_zero_of_le (le_of_lt hj), List.drop_zero,
            List.drop_append_eq_append_drop, hPlen,
            List.drop_eq_nil_of_le (by rw [hPlen]; exact hjs), List.nil_append]
        rw [hdropj] at hpre
        by_cases hcase : 39 ≤ 4176 - (j - s)
        · have h1 : end_markerL <+: (new_enum_sectionL ++ padL).drop (j - s) := by
            refine (List.isPrefix_append_of_length ?_).mp hpre
            rw [end_marker_length, List.length_drop, List.length_append,
              new_enum_section_length, padL_length]
            omega
          exact end_marker_not_in_new_enum (j - s) h1
        · push_neg at hcase
          have hdropk := prefix_drop_append hpre
          rw [List.length_drop, List.length_append, new_enum_section_length, padL_length]
            at hdropk
          have hES : end_markerL.drop (4174 + 2 - (j - s)) <+: end_markerL :=
            List.prefix_of_prefix_length_le hdropk hE_pre
              (by rw [List.length_drop, end_marker_length]; omega)
          have heq : end_markerL.drop (4174 + 2 - (j - s)) =
              end_markerL.take (39 - (4174 + 2 - (j - s))) := by
            have h3 := List.prefix_iff_eq_take.mp hES
            rw [List.length_drop, end_marker_length] at h3
            exact h3
          exact end_marker_aperiodic (4174 + 2 - (j - s)) (by omega) (by omega) heq
  have hrun : updateVoucherScript out =
      .wrote (out.take s ++ new_enum_sectionL ++ padL ++ out.drop (s + 4176)) := by
    unfold updateVoucherScript
    rw [claimA, claimB]
  rw [hrun, hdrop_big]
  have htake : out.take s = content.take s := by
    rw [hout_eq, List.take_left' hPlen]
  rw [htake]
  have hassemble :
      content.take s ++ new_enum_sectionL ++ padL ++ content.drop e = out := by
    rw [hout_eq]
    simp [List.append_assoc]
  rw [hassemble]

/-- Input used to witness C8: the start marker, one filler character, then
the end marker. -/
def c8WitnessContent : List Char := start_markerL ++ ('x' :: end_markerL)

/-- The rewrite of `c8WitnessContent`. -/
def c8WitnessOut : List Char := new_enum_sectionL ++ padL ++ end_markerL

theorem C8_rewrite_idempotent_witness :
    updateVoucherScript c8WitnessOut = .wrote c8WitnessOut := by
  have hout : updateVoucherScript c8WitnessContent = .wrote c8WitnessOut := by
    have h1 : updateVoucherScript c8WitnessContent =
        .wrote (c8WitnessContent.take 0 ++ new_enum_sectionL ++ padL ++
          c8WitnessContent.drop 49) := by
      unfold updateVoucherScript
      rw [show findSub start_markerL c8WitnessContent = some 0 by decide,
          show findSub end_markerL c8WitnessContent = some 49 by decide]
    have hd : c8WitnessContent.drop 49 = end_markerL := by
      show (start_markerL ++ ('x' :: end_markerL)).drop 49 = end_markerL
      rw [List.drop_append_eq_append_drop,
        List.drop_eq_nil_of_le (by rw [start_marker_length]; omega),
        List.nil_append, start_marker_length]
      rfl
    have ht : c8WitnessContent.take 0 = ([] : List Char) := rfl
    rw [h1, hd, ht, List.nil_append]
    rfl
  exact @C8_rewrite_idempotent c8WitnessContent c8WitnessOut 0 49
    (by decide) (by decide) (by omega) hout

/-- C9: when either marker does not occur in the input file's content
(Python `find` returns `-1`), the module body exits with status 1 and never
reaches the write, leaving the target file unchanged. -/
theorem C9_missing_marker_exits {content : List Char}
    (h : (∀ i, ¬ start_markerL <+: content.drop i) ∨
         (∀ i, ¬ end_markerL <+: content.drop i)) :
    updateVoucherScript content = .exitError 1 := by
  unfold updateVoucherScript
  rcases h with h | h
  · have h1 : findSub start_markerL content = none := findSub_eq_none_iff.mpr h
    rw [h1]
  · have h1 : findSub end_markerL content = none := findSub_eq_none_iff.mpr h
    rw [h1]
    cases h2 : findSub start_markerL content <;> rfl

theorem C9_missing_marker_exits_witness :
    updateVoucherScript ("ab".toList) = .exitError 1 :=
  C9_missing_marker_exits (Or.inl (noOccur_of_lt_length (by decide)))

/-! ## Part B: the engine core, modelled from the spec

The game engine is a compiled PyO3 extension; only its Python callers are in
the repository.  The definitions below are therefore modelled from the
specification (sections 3, 4 and 6 of `spec.md`).  The Python surface's
`Action` type is called `GameAction` here because the name `Action` is
already taken by Mathlib. -/

/-- Modelled from the spec: the enumerated game phases (blind selection,
active hand play, shop, round end, terminal with a win flag). -/
inductive Stage where
  | blindSelect
  | playingHand
  | shop
  | roundEnd
  | gameOver (win : Bool)
deriving DecidableEq

/-- Modelled from the spec: catalog display data for a joker (name,
description, cost) as surfaced by `get_joker_info` / `get_joker_cost`. -/
structure JokerInfo where
  name : String
  description : String
  cost : Nat
deriving DecidableEq

/-- Modelled from the spec: the joker catalog has a fixed registration
order; its size is a model parameter. -/
def jokerCatalogSize : Nat := 3

/-- Modelled from the spec: catalog lookup for a joker identifier. -/
def jokerInfo (j : Nat) : JokerInfo :=
  { name := "Joker " ++ toString j
    description := "Effect of joker " ++ toString j
    cost := 4 + j }

/-- `VoucherId::all()` of the generated section: every voucher in
registration (declaration) order. -/
def VoucherId.all : List VoucherId :=
  [.GrabBag, .Overstock, .OverstockPlus, .ClearanceSale, .Hone, .RerollSurplus,
   .CrystalBall, .Telescope, .Liquidation, .RerollGlut, .OmenGlobe, .Observatory,
   .VoucherPlaceholder]

/-- `impl fmt::Display for VoucherId` of the generated section. -/
def VoucherId.display : VoucherId → String
  | .GrabBag => "Grab Bag"
  | .Overstock => "Overstock"
  | .OverstockPlus => "Overstock Plus"
  | .ClearanceSale => "Clearance Sale"
  | .Hone => "Hone"
  | .RerollSurplus => "Reroll Surplus"
  | .CrystalBall => "Crystal Ball"
  | .Telescope => "Telescope"
  | .Liquidation => "Liquidation"
  | .RerollGlut => "Reroll Glut"
  | .OmenGlobe => "Omen Globe"
  | .Observatory => "Observatory"
  | .VoucherPlaceholder => "Voucher Placeholder"

/-- Modelled from the spec: the engine-owned game state (section 3's field
list: stage, ante/round counters, score against threshold, remaining plays
and discards, money, the available cards, the owned joker identifiers and
the slot counters, plus the owned vouchers consulted by prerequisites). -/
structure GameState where
  stage : Stage
  ante : Nat
  round : Nat
  score : Nat
  required_score : Nat
  plays : Nat
  discards : Nat
  money : Nat
  available : List Nat
  selected : List Nat
  joker_ids : List Nat
  joker_slots_used : Nat
  joker_slots_total : Nat
  owned_vouchers : List VoucherId
deriving DecidableEq

/-- Modelled from the spec: the tagged action variants (select-card,
play-hand, discard, buy-joker, buy-voucher, reroll-shop, skip-blind). -/
inductive GameAction where
  | selectCard (i : Nat)
  | playHand
  | discardHand
  | buyJoker (j : Nat)
  | buyVoucher (v : VoucherId)
  | reroll
  | skipBlind
deriving DecidableEq

/-- Modelled from the spec: fixed hand-size cap bounding the card-select
slots. -/
def handCap : Nat := 8

/-- Modelled from the spec: cost of a shop reroll. -/
def rerollCost : Nat := 5

/-- Modelled from the spec: the fixed-length action space — one slot per
selectable-card position up to the hand-size cap, the control actions, one
slot per catalog entry of each kind; the slot-to-action binding never
changes, only the validity mask does. -/
def actionSlots : List GameAction :=
  (List.range handCap).map GameAction.selectCard ++
    [GameAction.playHand, GameAction.discardHand] ++
    (List.range jokerCatalogSize).map GameAction.buyJoker ++
    VoucherId.all.map GameAction.buyVoucher ++
    [GameAction.reroll, GameAction.skipBlind]

/-- Modelled from the spec: a slot is valid iff the current stage permits
its action kind and the payload-specific precondition holds (card index in
range; buys require affordability, a free slot for jokers, and satisfied
prerequisites plus non-ownership for vouchers). -/
def slotValid (s : GameState) : GameAction → Bool
  | .selectCard i => decide (s.stage = .playingHand ∧ i < s.available.length)
  | .playHand => decide (s.stage = .playingHand ∧ 0 < s.plays)
  | .discardHand => decide (s.stage = .playingHand ∧ 0 < s.discards)
  | .buyJoker j => decide (s.stage = .shop ∧ j < jokerCatalogSize ∧
      (jokerInfo j).cost ≤ s.money ∧ s.joker_slots_used < s.joker_slots_total)
  | .buyVoucher v => decide (s.stage = .shop ∧ v.base_cost ≤ s.money ∧
      v ∉ s.owned_vouchers ∧ ∀ p ∈ v.prerequisites, p ∈ s.owned_vouchers)
  | .reroll => decide (s.stage = .shop ∧ rerollCost ≤ s.money)
  | .skipBlind => decide (s.stage = .blindSelect)

/-- Modelled from the spec: `gen_action_space()` — the fixed-length boolean
validity mask, a pure function of the state. -/
def gen_action_space (s : GameState) : List Bool :=
  actionSlots.map (slotValid s)

/-- Modelled from the spec: `gen_actions()` — the structured actions of the
currently valid slots, in ascending slot-index order. -/
def gen_actions (s : GameState) : List GameAction :=
  actionSlots.filter (slotValid s)

/-- Modelled from the spec: the stable human-readable slot names (the REPL
parses the `SelectCard: ` prefix of card slots). -/
def slotName : GameAction → String
  | .selectCard i => "SelectCard: " ++ toString i
  | .playHand => "PlayHand"
  | .discardHand => "DiscardHand"
  | .buyJoker j => "BuyJoker: " ++ (jokerInfo j).name
  | .buyVoucher v => "BuyVoucher: " ++ v.display
  | .reroll => "RerollShop"
  | .skipBlind => "SkipBlind"

/-- Modelled from the spec: the recoverable error taxonomy of section 7. -/
inductive GameError where
  | invalidAction
  | insufficientFunds
  | noAvailableSlot
  | prerequisiteNotMet
  | indexOutOfBounds
deriving DecidableEq

/-- Modelled from the spec: `get_action_name(index)` — a stable name for any
in-range slot, an `IndexOutOfBounds` error (never a crash) past the end. -/
def get_action_name (i : Nat) : Except GameError String :=
  if h : i < actionSlots.length then .ok (slotName (actionSlots.get ⟨i, h⟩))
  else .error .indexOutOfBounds

/-- Modelled from the spec: the mutation a valid action performs (play-hand
scores and decrements plays, with the round-clear check taking precedence
over play exhaustion; discard decrements discards; buys debit money and
register ownership, a joker buy also reserving a slot). -/
def applyAction (s : GameState) : GameAction → GameState
  | .selectCard i => { s with selected := i :: s.selected }
  | .playHand =>
      let gained := 10 * (s.selected.length + 1)
      let plays' := s.plays - 1
      let stage' :=
        if s.required_score ≤ s.score + gained then Stage.roundEnd
        else if plays' = 0 then Stage.gameOver false
        else s.stage
      { s with score := s.score + gained, plays := plays', selected := [],
               stage := stage' }
  | .discardHand => { s with discards := s.discards - 1, selected := [] }
  | .buyJoker j =>
      { s with money := s.money - (jokerInfo j).cost,
               joker_ids := s.joker_ids ++ [j],
               joker_slots_used := s.joker_slots_used + 1 }
  | .buyVoucher v =>
      { s with money := s.money - v.base_cost,
               owned_vouchers := v :: s.owned_vouchers }
  | .reroll => { s with money := s.money - rerollCost }
  | .skipBlind => { s with stage := .playingHand }

/-- Modelled from the spec: the engine owns exactly one mutable state;
snapshots handed to callers are immutable views of it. -/
structure GameEngine where
  state : GameState
deriving DecidableEq

/-- Modelled from the spec: `handle_action` re-validates the action against
a freshly generated mask; a valid action replaces the owned state, an
invalid one reports `InvalidAction` and keeps the state. -/
def GameEngine.handle_action (g : GameEngine) (a : GameAction) :
    GameEngine × Option GameError :=
  if slotValid g.state a then ({ state := applyAction g.state a }, none)
  else (g, some .invalidAction)

/-- Modelled from the spec: `handle_action_index` — apply by slot index;
out-of-range indices are rejected with `InvalidAction`. -/
def GameEngine.handle_action_index (g : GameEngine) (i : Nat) :
    GameEngine × Option GameError :=
  if h : i < actionSlots.length then g.handle_action (actionSlots.get ⟨i, h⟩)
  else (g, some .invalidAction)

/-- Modelled from the spec: `is_over` is true iff the stage is terminal. -/
def is_over (s : GameState) : Bool :=
  match s.stage with
  | .gameOver _ => true
  | _ => false

/-- Modelled from the spec: `is_win` — the terminal condition was a win. -/
def is_win (s : GameState) : Bool :=
  decide (s.stage = .gameOver true)

/-- Modelled from the spec: the freshly constructed game state. -/
def initState : GameState :=
  { stage := .blindSelect, ante := 1, round := 0, score := 0,
    required_score := 300, plays := 4, discards := 3, money := 4,
    available := [], selected := [], joker_ids := [], joker_slots_used := 0,
    joker_slots_total := 5, owned_vouchers := [] }

/-! ### The compatibility shim (spec section 4.5) -/

/-- Modelled from the spec: the legacy per-snapshot calls the shim keeps
alive (read-only: enumerate actions, action space, action names, terminal
check, the aggregate joker list; mutating: apply an action or an index). -/
inductive LegacyCall where
  | genActions
  | genActionSpace
  | getActionName (i : Nat)
  | isOver
  | jokers
  | handleAction (a : GameAction)
  | handleActionIndex (i : Nat)
deriving DecidableEq

/-- The legacy method's own name, as it appears on `GameState`. -/
def LegacyCall.callName : LegacyCall → String
  | .genActions => "gen_actions"
  | .genActionSpace => "gen_action_space"
  | .getActionName _ => "get_action_name"
  | .isOver => "is_over"
  | .jokers => "jokers"
  | .handleAction _ => "handle_action"
  | .handleActionIndex _ => "handle_action_index"

/-- The replacement call the deprecation warning points the caller to. -/
def LegacyCall.replacement : LegacyCall → String
  | .genActions => "GameEngine.gen_actions"
  | .genActionSpace => "GameEngine.gen_action_space"
  | .getActionName _ => "GameEngine.get_action_name"
  | .isOver => "GameEngine.is_over"
  | .jokers => "joker_ids"
  | .handleAction _ => "GameEngine.handle_action"
  | .handleActionIndex _ => "GameEngine.handle_action_index"

/-- Whether the legacy call would mutate the state it is invoked on. -/
def LegacyCall.isMutating : LegacyCall → Bool
  | .handleAction _ => true
  | .handleActionIndex _ => true
  | _ => false

instance {ε α : Type} [DecidableEq ε] [DecidableEq α] : DecidableEq (Except ε α)
  | .error e, .error f =>
    if h : e = f then .isTrue (by rw [h]) else .isFalse (fun hx => h (by injection hx))
  | .error _, .ok _ => .isFalse (fun hx => Except.noConfusion hx)
  | .ok _, .error _ => .isFalse (fun hx => Except.noConfusion hx)
  | .ok a, .ok b =>
    if h : a = b then .isTrue (by rw [h]) else .isFalse (fun hx => h (by injection hx))

/-- Values a read-only legacy call can return. -/
inductive LegacyValue where
  | actions (l : List GameAction)
  | mask (m : List Bool)
  | nameResult (r : Except GameError String)
  | flag (b : Bool)
  | jokerInfos (l : List JokerInfo)
deriving DecidableEq

/-- Modelled from the spec: what each read-only legacy call delegates to on
the current API (the aggregate `jokers` list is the info of each owned
joker id).  Mutating calls never reach this table: the shim rejects them
first, so their rows are inert placeholders. -/
def legacyReadValue (s : GameState) : LegacyCall → LegacyValue
  | .genActions => .actions (gen_actions s)
  | .genActionSpace => .mask (gen_action_space s)
  | .getActionName i => .nameResult (get_action_name i)
  | .isOver => .flag (is_over s)
  | .jokers => .jokerInfos (s.joker_ids.map jokerInfo)
  | .handleAction _ => .flag false
  | .handleActionIndex _ => .flag false

/-- The deprecation warning the shim emits for a legacy call. -/
def deprecationMessage (c : LegacyCall) : String :=
  "GameState." ++ c.callName ++ " is deprecated; use " ++ c.replacement ++ " instead"

/-- Result of a legacy call on a snapshot: the emitted warning plus either a
value or a runtime error message. -/
structure LegacyResult where
  warning : String
  outcome : Except String LegacyValue
deriving DecidableEq

/-- Modelled from the spec: the compatibility shim.  Every legacy call
emits its deprecation warning; a mutating call then always fails with a
runtime error (the snapshot no longer owns mutable state), a read-only call
delegates to the engine-owned API. -/
def snapshotCall (s : GameState) (c : LegacyCall) : LegacyResult :=
  { warning := deprecationMessage c
    outcome :=
      if c.isMutating then
        .error ("GameState." ++ c.callName ++
          ": snapshots are read-only; mutate through GameEngine")
      else
        .ok (legacyReadValue s c) }

/-- `kw` occurs verbatim inside `msg`. -/
def mentions (msg kw : String) : Prop :=
  kw.toList <:+: msg.toList

instance (msg kw : String) : Decidable (mentions msg kw) :=
  inferInstanceAs (Decidable (kw.toList <:+: msg.toList))

/-- Every shim warning says "deprecated" and names the replacement call. -/
theorem deprecationMessage_mentions (c : LegacyCall) :
    mentions (deprecationMessage c) "deprecated" ∧
      mentions (deprecationMessage c) c.replacement := by
  cases c with
  | genActions => exact ⟨by decide, by decide⟩
  | genActionSpace => exact ⟨by decide, by decide⟩
  | isOver => exact ⟨by decide, by decide⟩
  | jokers => exact ⟨by decide, by decide⟩
  | getActionName i =>
    exact ⟨(by decide :
        mentions "GameState.get_action_name is deprecated; use GameEngine.get_action_name instead"
          "deprecated"),
      (by decide :
        mentions "GameState.get_action_name is deprecated; use GameEngine.get_action_name instead"
          "GameEngine.get_action_name")⟩
  | handleAction a =>
    exact ⟨(by decide :
        mentions "GameState.handle_action is deprecated; use GameEngine.handle_action instead"
          "deprecated"),
      (by decide :
        mentions "GameState.handle_action is deprecated; use GameEngine.handle_action instead"
          "GameEngine.handle_action")⟩
  | handleActionIndex i =>
    exact ⟨(by decide :
        mentions
          "GameState.handle_action_index is deprecated; use GameEngine.handle_action_index instead"
          "deprecated"),
      (by decide :
        mentions
          "GameState.handle_action_index is deprecated; use GameEngine.handle_action_index instead"
          "GameEngine.handle_action_index")⟩

/-! ### Claims about the shim and the engine -/

/-- C1: on every snapshot obtained from `GameEngine.state`, the legacy
mutating calls `handle_action(action)` and `handle_action_index(index)`
always fail with a runtime error — they never forward the mutation — while
still emitting a deprecation warning. -/
theorem C1_snapshot_mutating_calls_fail :
    ∀ (g : GameEngine) (a : GameAction) (i : Nat),
      (∃ msg, (snapshotCall g.state (.handleAction a)).outcome = .error msg) ∧
      (∃ msg, (snapshotCall g.state (.handleActionIndex i)).outcome = .error msg) ∧
      mentions (snapshotCall g.state (.handleAction a)).warning "deprecated" ∧
      mentions (snapshotCall g.state (.handleActionIndex i)).warning "deprecated" := by
  intro g a i
  exact ⟨⟨_, rfl⟩, ⟨_, rfl⟩,
    (deprecationMessage_mentions (.handleAction a)).1,
    (deprecationMessage_mentions (.handleActionIndex i)).1⟩

/-- C2: every read-only legacy call on a snapshot succeeds with exactly the
value the current engine-owned API computes for that snapshot, and emits a
deprecation warning (not an error) naming the replacement call; the
`jokers` warning in particular names `joker_ids`. -/
theorem C2_snapshot_read_calls_delegate :
    ∀ (g : GameEngine) (i : Nat),
      (snapshotCall g.state .genActions).outcome =
        .ok (.actions (gen_actions g.state)) ∧
      (snapshotCall g.state .genActionSpace).outcome =
        .ok (.mask (gen_action_space g.state)) ∧
      (snapshotCall g.state (.getActionName i)).outcome =
        .ok (.nameResult (get_action_name i)) ∧
      (snapshotCall g.state .isOver).outcome = .ok (.flag (is_over g.state)) ∧
      (snapshotCall g.state .jokers).outcome =
        .ok (.jokerInfos (g.state.joker_ids.map jokerInfo)) ∧
      (∀ c : LegacyCall,
        mentions (snapshotCall g.state c).warning "deprecated" ∧
        mentions (snapshotCall g.state c).warning c.replacement) ∧
      mentions (snapshotCall g.state .jokers).warning "jokers" ∧
      mentions (snapshotCall g.state .jokers).warning "joker_ids" := by
  intro g i
  exact ⟨rfl, rfl, rfl, rfl, rfl,
    fun c => deprecationMessage_mentions c,
    (by decide : mentions "GameState.jokers is deprecated; use joker_ids instead" "jokers"),
    (by decide : mentions "GameState.jokers is deprecated; use joker_ids instead" "joker_ids")⟩

/-- The aggregate joker list the legacy `jokers` property returns. -/
def legacyJokers (s : GameState) : List JokerInfo :=
  s.joker_ids.map jokerInfo

/-- Modelled from the spec: the slot-usage invariant every engine-owned
state maintains — `len(joker_ids) == joker_slots_used <= joker_slots_total`. -/
def WellFormed (s : GameState) : Prop :=
  s.joker_slots_used = s.joker_ids.length ∧
    s.joker_slots_used ≤ s.joker_slots_total

/-- C3: at every snapshot the legacy aggregate joker list, the new joker-id
sequence and the slot-usage counter have equal lengths; the invariant holds
at construction and is preserved by every valid apply step. -/
theorem C3_joker_counts_agree :
    (∀ s : GameState, WellFormed s →
      (legacyJokers s).length = s.joker_ids.length ∧
        s.joker_ids.length = s.joker_slots_used) ∧
    WellFormed initState ∧
    (∀ (s : GameState) (a : GameAction), WellFormed s → slotValid s a = true →
      WellFormed (applyAction s a)) := by
  refine ⟨?_, ⟨rfl, by decide⟩, ?_⟩
  · intro s hwf
    exact ⟨List.length_map _ _, hwf.1.symm⟩
  · intro s a hwf hval
    cases a with
    | selectCard i => exact hwf
    | playHand => exact hwf
    | discardHand => exact hwf
    | buyVoucher v => exact hwf
    | reroll => exact hwf
    | skipBlind => exact hwf
    | buyJoker j =>
      simp only [slotValid, decide_eq_true_eq] at hval
      obtain ⟨-, -, -, hslot⟩ := hval
      refine ⟨?_, ?_⟩
      · show s.joker_slots_used + 1 = (s.joker_ids ++ [j]).length
        rw [List.length_append, hwf.1]
        rfl
      · show s.joker_slots_used + 1 ≤ s.joker_slots_total
        omega

/-- Witness state for C3's invariant clause: the fresh state, which is
well-formed. -/
theorem C3_joker_counts_agree_witness :
    (legacyJokers initState).length = initState.joker_ids.length ∧
      initState.joker_ids.length = initState.joker_slots_used :=
  C3_joker_counts_agree.1 initState C3_joker_counts_agree.2.1

/-- C4: a rejected action (by value or by index) leaves the engine's state
completely unchanged — the returned engine equals the one before the call,
field for field — so the caller may re-read the mask and retry. -/
theorem handle_action_result_cases (g : GameEngine) (b : GameAction) :
    g.handle_action b = ({ state := applyAction g.state b }, none) ∨
      g.handle_action b = (g, some .invalidAction) := by
  unfold GameEngine.handle_action
  split
  · exact Or.inl rfl
  · exact Or.inr rfl

theorem C4_rejected_action_preserves_state :
    ∀ (g : GameEngine) (i : Nat) (a : GameAction),
      ((g.handle_action_index i).2 ≠ none → (g.handle_action_index i).1 = g) ∧
      ((g.handle_action a).2 ≠ none → (g.handle_action a).1 = g) := by
  intro g i a
  have hA : ∀ b : GameAction, (g.handle_action b).2 ≠ none → (g.handle_action b).1 = g := by
    intro b hne
    rcases handle_action_result_cases g b with h | h
    · rw [h] at hne
      exact absurd rfl hne
    · rw [h]
  constructor
  · intro hne
    unfold GameEngine.handle_action_index at hne ⊢
    by_cases hi : i < actionSlots.length
    · rw [dif_pos hi] at hne ⊢
      exact hA _ hne
    · rw [dif_neg hi]
  · exact hA a

/-- Witness for C4: on the fresh state (blind-select stage) slot 0 is a
card-select action, which is invalid, so the engine is returned unchanged. -/
theorem C4_rejected_action_preserves_state_witness :
    (GameEngine.handle_action_index ⟨initState⟩ 0).1 = ⟨initState⟩ ∧
      (GameEngine.handle_action ⟨initState⟩ (.selectCard 0)).1 = ⟨initState⟩ :=
  ⟨(C4_rejected_action_preserves_state ⟨initState⟩ 0 (.selectCard 0)).1 (by decide),
   (C4_rejected_action_preserves_state ⟨initState⟩ 0 (.selectCard 0)).2 (by decide)⟩

/-! ### C5: mask, actions and names agree -/

theorem range_filter_map_eq_filter {α : Type} (d : α) (p : α → Bool) :
    ∀ l : List α,
      ((List.range l.length).filter (fun i => (l.map p).getD i false)).map
          (fun i => l.getD i d) = l.filter p := by
  intro l
  induction l with
  | nil => rfl
  | cons x t ih =>
    have hcomp1 :
        ((fun i => (p x :: t.map p).getD i false) ∘ Nat.succ) =
          (fun i => (t.map p).getD i false) := rfl
    have hcomp2 :
        ((fun i => (x :: t).getD i d) ∘ Nat.succ) = (fun i => t.getD i d) := rfl
    rw [List.length_cons, List.range_succ_eq_map, List.filter_cons]
    simp only [List.map_cons, List.getD_cons_zero]
    by_cases hpx : p x = true
    · rw [if_pos hpx, List.map_cons, List.filter_map, List.map_map, hcomp1, hcomp2, ih]
      rw [List.filter_cons, if_pos hpx]
      rfl
    · rw [if_neg hpx, List.filter_map, List.map_map, hcomp1, hcomp2, ih]
      rw [List.filter_cons, if_neg hpx]

theorem count_true_map {α : Type} (p : α → Bool) (l : List α) :
    (l.map p).count true = l.countP p := by
  induction l with
  | nil => rfl
  | cons x t ih =>
    rw [List.map_cons, List.count_cons, List.countP_cons, ih]
    cases hpx : p x <;> simp [hpx]

theorem slotName_nonempty : ∀ a : GameAction, slotName a ≠ "" := by
  intro a h
  cases a with
  | selectCard i =>
    have hlen := congrArg String.length h
    simp only [slotName, String.length_append] at hlen
    have h12 : ("SelectCard: " : String).length = 12 := rfl
    have h0 : ("" : String).length = 0 := rfl
    omega
  | buyJoker j =>
    have hlen := congrArg String.length h
    simp only [slotName, String.length_append] at hlen
    have h10 : ("BuyJoker: " : String).length = 10 := rfl
    have h0 : ("" : String).length = 0 := rfl
    omega
  | buyVoucher v =>
    have hlen := congrArg String.length h
    simp only [slotName, String.length_append] at hlen
    have h12 : ("BuyVoucher: " : String).length = 12 := rfl
    have h0 : ("" : String).length = 0 := rfl
    omega
  | playHand => exact absurd h (by decide)
  | discardHand => exact absurd h (by decide)
  | reroll => exact absurd h (by decide)
  | skipBlind => exact absurd h (by decide)

/-- C5: at every state, `gen_actions` is exactly the mask's true slots in
ascending slot-index order (so its length is the number of true mask
entries), and every true-mask index has a non-empty name from
`get_action_name`. -/
theorem C5_actions_match_mask :
    ∀ s : GameState,
      gen_actions s =
        ((List.range actionSlots.length).filter
            (fun i => (gen_action_space s).getD i false)).map
          (fun i => actionSlots.getD i GameAction.playHand) ∧
      (gen_actions s).length = (gen_action_space s).count true ∧
      (∀ i, (gen_action_space s).getD i false = true →
        ∃ n, get_action_name i = .ok n ∧ n ≠ "") := by
  intro s
  refine ⟨?_, ?_, ?_⟩
  · exact (range_filter_map_eq_filter GameAction.playHand (slotValid s) actionSlots).symm
  · show (actionSlots.filter (slotValid s)).length = (actionSlots.map (slotValid s)).count true
    rw [count_true_map, List.countP_eq_length_filter]
  · intro i hmask
    have hi : i < actionSlots.length := by
      by_contra hge
      push_neg at hge
      have hdef : (gen_action_space s).getD i false = false := by
        apply List.getD_eq_default
        rw [gen_action_space, List.length_map]
        exact hge
      rw [hdef] at hmask
      cases hmask
    refine ⟨slotName (actionSlots.get ⟨i, hi⟩), ?_, slotName_nonempty _⟩
    unfold get_action_name
    rw [dif_pos hi]

/-! ### C7: `_load_config` of `repl/repl.py` -/

/-- The key/value loop of `_load_config`: starting from a fresh
`pylatro.Config()`, each JSON item whose key the config recognizes
(`hasattr(config, key)`) is applied with `setattr`; any other key is
skipped after printing a warning.  The config is modelled as the list of
applied settings and the warnings as the printed lines, since
`pylatro.Config`'s attribute set lives in the compiled extension;
`hasattrP` stands for `hasattr(config, ·)`. -/
def loadConfig {V : Type} (hasattrP : String → Bool)
    (data : List (String × V)) : List (String × V) × List String :=
  data.foldl
    (fun acc kv =>
      if hasattrP kv.1 then (acc.1 ++ [kv], acc.2)
      else (acc.1, acc.2 ++ ["Warning: unknown config key '" ++ kv.1 ++ "'"]))
    ([], [])

theorem loadConfig_foldl {V : Type} (hasattrP : String → Bool) :
    ∀ (data : List (String × V)) (acc : List (String × V) × List String),
      data.foldl
        (fun acc kv =>
          if hasattrP kv.1 then (acc.1 ++ [kv], acc.2)
          else (acc.1, acc.2 ++ ["Warning: unknown config key '" ++ kv.1 ++ "'"]))
        acc =
      (acc.1 ++ data.filter (fun kv => hasattrP kv.1),
       acc.2 ++ (data.filter (fun kv => !hasattrP kv.1)).map
         (fun kv => "Warning: unknown config key '" ++ kv.1 ++ "'")) := by
  intro data
  induction data with
  | nil => intro acc; simp
  | cons kv t ih =>
    intro acc
    rw [List.foldl_cons, ih, List.filter_cons, List.filter_cons]
    by_cases hk : hasattrP kv.1 = true
    · rw [if_pos hk, if_pos hk, if_neg (by simp [hk])]
      simp [List.append_assoc]
    · rw [if_neg hk, if_neg hk, if_pos (by simp [Bool.not_eq_true] at hk ⊢; exact hk)]
      simp [List.append_assoc]

/-- C7: loading a config mapping never fails: every recognized key is
applied (in order), and every unrecognized key is merely skipped with a
warning line naming it. -/
theorem C7_unknown_config_keys_tolerated :
    ∀ (V : Type) (hasattrP : String → Bool) (data : List (String × V)),
      (loadConfig hasattrP data).1 = data.filter (fun kv => hasattrP kv.1) ∧
      (loadConfig hasattrP data).2 =
        (data.filter (fun kv => !hasattrP kv.1)).map
          (fun kv => "Warning: unknown config key '" ++ kv.1 ++ "'") := by
  intro V hasattrP data
  unfold loadConfig
  rw [loadConfig_foldl hasattrP data ([], [])]
  exact ⟨by simp, by simp⟩
